import Mathlib

/-!
Verification of the identity and access-control core of the Traffic_backend
repository: refresh-token rotation (src/controllers/authControllerV2.js and
src/models/RefreshToken.js), self-registration, password reset, the
administrative user operations (src/controllers/adminController.js), the
owner bootstrap routine (src/utils/bootstrapOwner.js), the `requireRole`
gate (src/middleware/auth.js) and the static permission table
(src/middleware/permissions.js).

The JavaScript code is shallowly embedded: Mongo documents become Lean
structures, the collections become lists, `Date.now()` becomes an explicit
`now : Nat` argument (milliseconds), random token strings and fresh Mongo
ids become explicit arguments of the operations, and every controller is a
pure function from a state and a request to a response and a new state.
-/

set_option linter.unusedVariables false

namespace TrafficBackend

/-- User document as stored by the `User` mongoose model, restricted to the
fields the auth and admin subsystem reads or writes. -/
structure User where
  id : Nat
  name : String
  email : String
  password : String
  role : String
  isActive : Bool
  resetPasswordToken : Option String := none
  resetPasswordExpire : Option Nat := none
  deriving Repr, DecidableEq

/-- RefreshToken document (schema of src/models/RefreshToken.js). -/
structure TokenRec where
  token : String
  userId : Nat
  expiresAt : Nat
  createdByIp : String
  revokedAt : Option Nat := none
  revokedByIp : Option String := none
  replacedByToken : Option String := none
  isActive : Bool := true
  deriving Repr, DecidableEq

/-- ASCII lowercasing of one character, as `toLowerCase` acts on the email
strings of this system. -/
def lowerChar (c : Char) : Char :=
  if 65 ≤ c.toNat ∧ c.toNat ≤ 90 then Char.ofNat (c.toNat + 32) else c

/-- Lowercasing `email.toLowerCase()`, implemented by structural recursion
over the character list so that concrete states evaluate. -/
def toLowerStr (s : String) : String :=
  String.mk (s.data.map lowerChar)

/-- Prefix test `s.startsWith(pre)`. -/
def strStartsWith (s pre : String) : Bool :=
  pre.data.isPrefixOf s.data

/-- Splitting on a single space, as `s.split(" ")` does in JavaScript. -/
def splitOnSpace : List Char → List (List Char)
  | [] => [[]]
  | c :: rest =>
    if c = ' ' then [] :: splitOnSpace rest
    else
      match splitOnSpace rest with
      | [] => [[c]]
      | w :: ws => (c :: w) :: ws

/-- Truthiness of an optional string value in JavaScript: `undefined` and
the empty string are falsy, every other string is truthy. -/
def jsTruthy : Option String → Bool
  | none => false
  | some s => s != ""

/-- Virtual `isExpired` of RefreshToken.js: `Date.now() >= this.expiresAt`. -/
def isExpired (r : TokenRec) (now : Nat) : Bool :=
  decide (now ≥ r.expiresAt)

/-- Virtual `isValid` of RefreshToken.js:
`this.isActive && !this.isExpired && !this.revokedAt`. -/
def isValidTok (r : TokenRec) (now : Nat) : Bool :=
  r.isActive && !(isExpired r now) && r.revokedAt.isNone

/-- Method `revoke(ip)` of RefreshToken.js: sets `revokedAt`, `revokedByIp`
and clears `isActive`, then saves the document. -/
def revoke (r : TokenRec) (now : Nat) (ip : String) : TokenRec :=
  { r with revokedAt := some now, revokedByIp := some ip, isActive := false }

/-- Static `revokeAllForUser(userId, ip)` of RefreshToken.js: an
`updateMany` filtered on `{ userId, isActive: true }` that sets
`revokedAt`, `revokedByIp` and `isActive: false`. -/
def revokeAllForUser (uid : Nat) (ip : String) (now : Nat)
    (store : List TokenRec) : List TokenRec :=
  store.map fun r =>
    if r.userId == uid && r.isActive then
      { r with revokedAt := some now, revokedByIp := some ip, isActive := false }
    else r

/-- Persisting a `save()` of a single document found earlier: replace the
first element satisfying the predicate (Mongo updates one document,
identified by its unique `_id`). -/
def updateFirst {α : Type} (p : α → Bool) (f : α → α) : List α → List α
  | [] => []
  | a :: l => if p a then f a :: l else a :: updateFirst p f l

/-- Persisting a `findByIdAndDelete`: remove the first element satisfying
the predicate. -/
def removeFirst {α : Type} (p : α → Bool) : List α → List α
  | [] => []
  | a :: l => if p a then l else a :: removeFirst p l

/-- Combined persistent state of the auth subsystem: the `users` and
`refreshtokens` collections. -/
structure AuthState where
  users : List User
  tokens : List TokenRec
  deriving Repr, DecidableEq

/-- Lookup `RefreshToken.findOne({ token })`. -/
def findTok (st : AuthState) (t : String) : Option TokenRec :=
  st.tokens.find? fun r => r.token == t

/-- Lookup `User.findById(id)`. -/
def findUser (st : AuthState) (uid : Nat) : Option User :=
  st.users.find? fun u => u.id == uid

/-- Refresh-token lifetime: seven days in milliseconds. -/
def sevenDays : Nat := 7 * 24 * 60 * 60 * 1000

/-- Helper `generateRefreshToken(userId, ip)` of authControllerV2.js. The
output of `crypto.randomBytes(40).toString(hex)` is modelled by the
caller-supplied string `tok`. -/
def generateRefreshToken (uid : Nat) (ip : String) (now : Nat)
    (tok : String) : TokenRec :=
  { token := tok, userId := uid, expiresAt := now + sevenDays,
    createdByIp := ip }

/-- Response of the refresh endpoint (status and message of the error path,
or the user summary and new refresh token of the success path). -/
inductive RefreshOut where
  | err (status : Nat) (msg : String)
  | ok (userId : Nat) (role : String) (newToken : String)
  deriving Repr, DecidableEq

/-- Controller `exports.refreshToken` of authControllerV2.js. The flag
`saveOk` models whether persisting the successor record
(`newRefreshToken.save()`) succeeds; when it fails the error bubbles to the
generic 500 handler. Note the source revokes the presented record (a
persisted write) before saving the successor. -/
def refreshTokenCtrl (st : AuthState) (tok : Option String) (ip : String)
    (now : Nat) (fresh : String) (saveOk : Bool) : RefreshOut × AuthState :=
  if !(jsTruthy tok) then (.err 400 "Refresh token is required", st)
  else
    let t := tok.getD ""
    match findTok st t with
    | none => (.err 401 "Invalid refresh token", st)
    | some r =>
      if !(isValidTok r now) then
        (.err 401 "Refresh token is expired or revoked", st)
      else
        match findUser st r.userId with
        | none => (.err 401 "User not found or inactive", st)
        | some u =>
          if !u.isActive then (.err 401 "User not found or inactive", st)
          else
            let newRec := generateRefreshToken u.id ip now fresh
            let marked := updateFirst (fun x => x.token == t)
              (fun x => revoke { x with replacedByToken := some fresh } now ip)
              st.tokens
            if saveOk then
              (.ok u.id u.role fresh, { st with tokens := marked ++ [newRec] })
            else
              (.err 500 "Server Error", { st with tokens := marked })

/-- Controller `exports.logout` of authControllerV2.js: if a token is
supplied and found, revoke it; the response is always a 200 ack. -/
def logoutCtrl (st : AuthState) (tok : Option String) (ip : String)
    (now : Nat) : AuthState :=
  if !(jsTruthy tok) then st
  else
    let t := tok.getD ""
    match findTok st t with
    | none => st
    | some _ =>
      let tokens2 :=
        updateFirst (fun x => x.token == t) (fun x => revoke x now ip) st.tokens
      { st with tokens := tokens2 }

/-- Operations of the modelled system that touch the refresh-token store:
token rotation, logout, bulk revocation (logout-all, password change and
password reset all call `revokeAllForUser`), and issuing a fresh token
(login and register). -/
inductive AuthOp where
  | doRefresh (tok : Option String) (ip : String) (now : Nat) (fresh : String)
  | doLogout (tok : Option String) (ip : String) (now : Nat)
  | doLogoutAll (uid : Nat) (ip : String) (now : Nat)
  | doIssue (uid : Nat) (ip : String) (now : Nat) (fresh : String)
  deriving Repr, DecidableEq

/-- One step of the system. -/
def step (st : AuthState) : AuthOp → AuthState
  | .doRefresh tok ip now fresh => (refreshTokenCtrl st tok ip now fresh true).2
  | .doLogout tok ip now => logoutCtrl st tok ip now
  | .doLogoutAll uid ip now =>
      { st with tokens := revokeAllForUser uid ip now st.tokens }
  | .doIssue uid ip now fresh =>
      { st with tokens := st.tokens ++ [generateRefreshToken uid ip now fresh] }

/-- Running a sequence of operations. -/
def runOps (st : AuthState) (ops : List AuthOp) : AuthState :=
  ops.foldl step st

/-- Roles assignable through the API according to authControllerV2.register,
adminController.createUser and adminController.changeUserRole. -/
def validRoles : List String := ["admin", "operator", "viewer"]

/-- Response of the register endpoint. -/
inductive RegisterOut where
  | err (status : Nat) (msg : String)
  | ok (userId : Nat) (role : String) (refreshTok : String)
  deriving Repr, DecidableEq

/-- Controller `exports.register` of authControllerV2.js, the one mounted at
POST /api/auth/register by app.js via src/routes/authRoutesV2.js. A supplied
`role` outside admin, operator, viewer is rejected; the stored role is
`role || viewer`. The Mongo-generated id and the random refresh-token string
are the arguments `freshId` and `freshTok`. -/
def registerV2 (st : AuthState) (name email password : String)
    (role : Option String) (ip : String) (now : Nat) (freshId : Nat)
    (freshTok : String) : RegisterOut × AuthState :=
  if (st.users.find? fun u => u.email == toLowerStr email).isSome then
    (.err 400 "User already exists with this email", st)
  else if jsTruthy role && !(validRoles.contains (role.getD "")) then
    (.err 400 "Invalid role specified", st)
  else
    let storedRole := if jsTruthy role then role.getD "" else "viewer"
    let newU : User :=
      { id := freshId, name := name, email := toLowerStr email,
        password := password, role := storedRole, isActive := true }
    let newTok := generateRefreshToken freshId ip now freshTok
    (.ok freshId storedRole freshTok,
      { st with users := st.users ++ [newU], tokens := st.tokens ++ [newTok] })

/-- Response of the forgot-password endpoint. -/
inductive ForgotOut where
  | err (status : Nat) (msg : String)
  | ack (msg : String) (resetTok : Option String)
  deriving Repr, DecidableEq

/-- Stand-in for the sha256 hash used on reset tokens (injective tagging;
the hash itself is irrelevant to the verified properties). -/
def hashToken (s : String) : String := "sha256-" ++ s

/-- Controller `exports.forgotPassword` of authControllerV2.js. For an
unknown email it answers with a generic acknowledgement; for a known email
it stores the hashed reset token with a ten-minute expiry and answers with
a different message carrying the raw reset token in the body. -/
def forgotPassword (users : List User) (email : Option String)
    (resetTok : String) (now : Nat) : ForgotOut × List User :=
  if !(jsTruthy email) then (.err 400 "Please provide email", users)
  else
    let e := toLowerStr (email.getD "")
    match users.find? (fun u => u.email == e) with
    | none =>
      (.ack "If an account exists with this email, a password reset link has been sent"
        none, users)
    | some _ =>
      let users2 := updateFirst (fun u => u.email == e)
        (fun u =>
          { u with resetPasswordToken := some (hashToken resetTok),
                   resetPasswordExpire := some (now + 10 * 60 * 1000) })
        users
      (.ack "Password reset token generated" (some resetTok), users2)

/-- Response of an administrative endpoint: an error, or a success status
with the user document included in the response body. -/
inductive AdminOut where
  | err (status : Nat) (msg : String)
  | ok (status : Nat) (u : User)
  deriving Repr, DecidableEq

/-- Status of an administrative response, when it is an error. -/
def errStatus : AdminOut → Option Nat
  | .err s _ => some s
  | .ok _ _ => none

/-- Controller `exports.createUser` of adminController.js (owner only,
enforced by the route middleware): validates presence of all fields, the
password length, the role value, and email uniqueness, then creates the
user with the requested role. -/
def createUser (users : List User) (name email password role : Option String)
    (freshId : Nat) : AdminOut × List User :=
  if !(jsTruthy name) || !(jsTruthy email) || !(jsTruthy password) ||
      !(jsTruthy role) then
    (.err 400 "Please provide name, email, password, and role", users)
  else if (password.getD "").length < 8 then
    (.err 400 "Password must be at least 8 characters", users)
  else if !(validRoles.contains (role.getD "")) then
    (.err 400 "Role must be admin, operator, or viewer", users)
  else if (users.find? fun u => u.email == toLowerStr (email.getD "")).isSome then
    (.err 409 "User with this email already exists", users)
  else
    let newU : User :=
      { id := freshId, name := name.getD "",
        email := toLowerStr (email.getD ""), password := password.getD "",
        role := role.getD "", isActive := true }
    (.ok 201 newU, users ++ [newU])

/-- Count of active owners, as computed inside changeUserRole. -/
def countActiveOwners (users : List User) : Nat :=
  (users.filter fun u => u.role == "owner" && u.isActive).length

/-- Controller `exports.changeUserRole` of adminController.js: validates the
role value (owner is not assignable), refuses to change the role of an
owner, keeps the defensive last-owner check of the source (unreachable
there), and otherwise saves the new role on the target. -/
def changeUserRole (users : List User) (userId : Nat) (role : Option String) :
    AdminOut × List User :=
  if !(jsTruthy role) then (.err 400 "Please provide a role", users)
  else if !(validRoles.contains (role.getD "")) then
    (.err 400 "Role must be admin, operator, or viewer", users)
  else
    match users.find? (fun u => u.id == userId) with
    | none => (.err 404 "User not found", users)
    | some u =>
      if u.role == "owner" then
        (.err 400 "Cannot change the role of an owner", users)
      else if role.getD "" != "owner" &&
          decide (countActiveOwners users ≤ 1) && u.role == "owner" then
        (.err 403 "Cannot demote the last owner", users)
      else
        let users2 := updateFirst (fun x => x.id == userId)
          (fun x => { x with role := role.getD "" }) users
        (.ok 200 { u with role := role.getD "" }, users2)

/-- Controller `exports.deleteUser` of adminController.js: 404 when the
target does not exist, 403 when the target is an owner, 403 when the target
is the requester, otherwise `User.findByIdAndDelete` permanently removes
the document. -/
def deleteUser (users : List User) (requesterId targetId : Nat) :
    AdminOut × List User :=
  match users.find? (fun u => u.id == targetId) with
  | none => (.err 404 "User not found", users)
  | some u =>
    if u.role == "owner" then
      (.err 403 "Cannot delete an owner account", users)
    else if u.id == requesterId then
      (.err 403 "Cannot delete your own account", users)
    else
      (.ok 200 u, removeFirst (fun x => x.id == targetId) users)

/-- Startup routine of src/utils/bootstrapOwner.js. `ownerEmail` models
OWNER_EMAIL and `defaultPassword` models OWNER_DEFAULT_PASSWORD from the
environment. When a user with the configured email exists and its role is
not owner, the user is promoted and reactivated; when its role is already
owner the document is not touched; when no user exists an owner account is
created. -/
def bootstrapOwner (ownerEmail : Option String)
    (defaultPassword : Option String) (users : List User) (freshId : Nat) :
    List User :=
  if !(jsTruthy ownerEmail) then users
  else
    let e := ownerEmail.getD ""
    match users.find? (fun u => u.email == e) with
    | some owner =>
      if owner.role != "owner" then
        updateFirst (fun u => u.email == e)
          (fun u => { u with role := "owner", isActive := true }) users
      else users
    | none =>
      let pw := if jsTruthy defaultPassword then defaultPassword.getD ""
        else "Owner@123456"
      users ++ [{ id := freshId, name := "System Owner", email := e,
                  password := pw, role := "owner", isActive := true }]

/-- Extraction of the bearer token from the Authorization header:
`req.headers.authorization.startsWith(Bearer)` followed by
`split(space)[1]`. -/
def extractToken (header : Option String) : Option String :=
  match header with
  | none => none
  | some s => if strStartsWith s "Bearer" then
      ((splitOnSpace s.data).get? 1).map String.mk
    else none

/-- Outcome of a middleware gate: an error response, or control passed to
the next handler. -/
inductive GateOut where
  | err (status : Nat) (msg : String)
  | next
  deriving Repr, DecidableEq

/-- Middleware `exports.requireRole(...roles)` of src/middleware/auth.js.
`verify` models `jwt.verify`: `none` when the token is malformed, expired
or carries a bad signature (the thrown error is caught and mapped to 401),
`some uid` when verification succeeds and the payload carries user id
`uid`. -/
def requireRole (roles : List String) (users : List User)
    (header : Option String) (verify : String → Option Nat) : GateOut :=
  let token := extractToken header
  if !(jsTruthy token) then .err 401 "Not authorized to access this route"
  else
    match verify (token.getD "") with
    | none => .err 401 "Not authorized to access this route"
    | some uid =>
      match users.find? (fun u => u.id == uid) with
      | none => .err 404 "User not found"
      | some u =>
        if !u.isActive then .err 403 "User account is deactivated"
        else if !(roles.contains u.role) then
          .err 403 ("User role " ++ u.role ++
            " is not authorized to access this route")
        else .next

/-- Permission set of the admin role (src/middleware/permissions.js). -/
def adminPerms : List (String × Bool) :=
  [("viewDashboard", true), ("viewMap", true), ("viewAnalytics", true),
   ("modifySignals", true), ("overrideSignals", true),
   ("manageEmergencies", true), ("manageUsers", true),
   ("viewSettings", true), ("modifySettings", true)]

/-- Permission set of the operator role. -/
def operatorPerms : List (String × Bool) :=
  [("viewDashboard", true), ("viewMap", true), ("viewAnalytics", true),
   ("modifySignals", true), ("overrideSignals", false),
   ("manageEmergencies", true), ("manageUsers", false),
   ("viewSettings", true), ("modifySettings", false)]

/-- Permission set of the viewer role. -/
def viewerPerms : List (String × Bool) :=
  [("viewDashboard", true), ("viewMap", true), ("viewAnalytics", true),
   ("modifySignals", false), ("overrideSignals", false),
   ("manageEmergencies", false), ("manageUsers", false),
   ("viewSettings", false), ("modifySettings", false)]

/-- Static role-to-permission table PERMISSIONS of
src/middleware/permissions.js: keys admin, operator and viewer only;
`none` models an undefined lookup. -/
def PERMISSIONS (role : String) : Option (List (String × Bool)) :=
  if role == "admin" then some adminPerms
  else if role == "operator" then some operatorPerms
  else if role == "viewer" then some viewerPerms
  else none

/-- JavaScript property lookup `userPermissions[permission]` coerced to a
boolean: an absent key is falsy. -/
def permLookup (perms : List (String × Bool)) (p : String) : Bool :=
  match perms.find? (fun x => x.1 == p) with
  | some x => x.2
  | none => false

/-- Middleware `hasPermission(permission)` of src/middleware/permissions.js,
applied to the authenticated principal `req.user`. -/
def hasPermission (permission : String) (reqUser : Option User) : GateOut :=
  match reqUser with
  | none => .err 401 "Not authorized to access this route"
  | some u =>
    match PERMISSIONS u.role with
    | none => .err 403 "Invalid role"
    | some perms =>
      if !(permLookup perms permission) then
        .err 403 ("Role " ++ u.role ++ " does not have permission to " ++
          permission)
      else .next

/-- Response of GET /api/auth/permissions. -/
structure PermsResponse where
  status : Nat
  role : String
  perms : List (String × Bool)
  deriving Repr, DecidableEq

/-- Handler `getUserPermissions` of src/middleware/permissions.js, mounted
at GET /api/auth/permissions: returns the role together with
`PERMISSIONS[userRole] || {}`. -/
def getUserPermissions (reqUser : Option User) : PermsResponse :=
  match reqUser with
  | none => { status := 401, role := "", perms := [] }
  | some u =>
    { status := 200, role := u.role, perms := (PERMISSIONS u.role).getD [] }

/-! ### Helper lemmas about list lookups and single-document updates -/

theorem find?_cons_pos {α : Type} (p : α → Bool) (a : α) (l : List α)
    (h : p a = true) : (a :: l).find? p = some a := by
  simp [List.find?, h]

theorem find?_cons_neg {α : Type} (p : α → Bool) (a : α) (l : List α)
    (h : p a = false) : (a :: l).find? p = l.find? p := by
  simp [List.find?, h]

theorem find?_append_left {α : Type} (p : α → Bool) (l₁ l₂ : List α) (a : α)
    (h : l₁.find? p = some a) : (l₁ ++ l₂).find? p = some a := by
  induction l₁ with
  | nil => simp [List.find?] at h
  | cons b l ih =>
    rw [List.cons_append]
    cases hb : p b with
    | true =>
      rw [find?_cons_pos p b _ hb] at h ⊢
      exact h
    | false =>
      rw [find?_cons_neg p b _ hb] at h ⊢
      exact ih h

theorem find?_updateFirst_self {α : Type} (p : α → Bool) (f : α → α)
    (l : List α) (hf : ∀ x, p (f x) = p x) :
    (updateFirst p f l).find? p = (l.find? p).map f := by
  induction l with
  | nil => simp [updateFirst]
  | cons a l ih =>
    cases ha : p a with
    | true =>
      rw [updateFirst, if_pos ha, find?_cons_pos p (f a) _ (by rw [hf]; exact ha),
        find?_cons_pos p a _ ha]
      rfl
    | false =>
      rw [updateFirst, if_neg (by simp [ha]),
        find?_cons_neg p a _ ha, find?_cons_neg p a _ ha]
      exact ih

/-- A token that is on file and already revoked (inactive). -/
def TokGone (t : String) (l : List TokenRec) : Prop :=
  ∃ r, l.find? (fun x => x.token == t) = some r ∧ r.isActive = false

theorem tokGone_updateFirst (t : String) (q : TokenRec → Bool)
    (f : TokenRec → TokenRec) (htok : ∀ x, (f x).token = x.token)
    (hmono : ∀ x, x.isActive = false → (f x).isActive = false)
    (l : List TokenRec) (h : TokGone t l) : TokGone t (updateFirst q f l) := by
  induction l with
  | nil => simpa [updateFirst] using h
  | cons a l ih =>
    obtain ⟨r, hr, hact⟩ := h
    cases hq : q a with
    | true =>
      rw [updateFirst, if_pos hq]
      cases hat : (a.token == t) with
      | true =>
        rw [find?_cons_pos (fun x => x.token == t) a _ hat] at hr
        refine ⟨f a, ?_, ?_⟩
        · exact find?_cons_pos (fun x => x.token == t) (f a) _
            (by simp only [htok]; exact hat)
        · exact hmono a (by cases hr; exact hact)
      | false =>
        rw [find?_cons_neg (fun x => x.token == t) a _ hat] at hr
        refine ⟨r, ?_, hact⟩
        rw [find?_cons_neg (fun x => x.token == t) (f a) _
          (by simp only [htok]; exact hat)]
        exact hr
    | false =>
      rw [updateFirst, if_neg (by simp [hq])]
      cases hat : (a.token == t) with
      | true =>
        rw [find?_cons_pos (fun x => x.token == t) a _ hat] at hr
        exact ⟨a, find?_cons_pos (fun x => x.token == t) a _ hat,
          by cases hr; exact hact⟩
      | false =>
        rw [find?_cons_neg (fun x => x.token == t) a _ hat] at hr
        obtain ⟨r', hr', hact'⟩ := ih ⟨r, hr, hact⟩
        refine ⟨r', ?_, hact'⟩
        rw [find?_cons_neg (fun x => x.token == t) a _ hat]
        exact hr'

theorem tokGone_map (t : String) (f : TokenRec → TokenRec)
    (htok : ∀ x, (f x).token = x.token)
    (hmono : ∀ x, x.isActive = false → (f x).isActive = false)
    (l : List TokenRec) (h : TokGone t l) : TokGone t (l.map f) := by
  induction l with
  | nil => simpa using h
  | cons a l ih =>
    obtain ⟨r, hr, hact⟩ := h
    rw [List.map_cons]
    cases hat : (a.token == t) with
    | true =>
      rw [find?_cons_pos (fun x => x.token == t) a _ hat] at hr
      refine ⟨f a, ?_, ?_⟩
      · exact find?_cons_pos (fun x => x.token == t) (f a) _
          (by simp only [htok]; exact hat)
      · exact hmono a (by cases hr; exact hact)
    | false =>
      rw [find?_cons_neg (fun x => x.token == t) a _ hat] at hr
      obtain ⟨r', hr', hact'⟩ := ih ⟨r, hr, hact⟩
      refine ⟨r', ?_, hact'⟩
      rw [find?_cons_neg (fun x => x.token == t) (f a) _
        (by simp only [htok]; exact hat)]
      exact hr'

theorem tokGone_append (t : String) (l₁ l₂ : List TokenRec)
    (h : TokGone t l₁) : TokGone t (l₁ ++ l₂) := by
  obtain ⟨r, hr, hact⟩ := h
  exact ⟨r, find?_append_left _ _ _ _ hr, hact⟩

theorem tokGone_refreshCtrl (t : String) (st : AuthState) (tok : Option String)
    (ip : String) (now : Nat) (fresh : String) (saveOk : Bool)
    (h : TokGone t st.tokens) :
    TokGone t ((refreshTokenCtrl st tok ip now fresh saveOk).2).tokens := by
  simp only [refreshTokenCtrl]
  split
  · exact h
  · split
    · exact h
    · split
      · exact h
      · split
        · exact h
        · split
          · exact h
          · split
            · refine tokGone_append t _ _ ?_
              refine tokGone_updateFirst t _ _ ?_ ?_ _ h
              · intro x
                rfl
              · intro x hx
                rfl
            · refine tokGone_updateFirst t _ _ ?_ ?_ _ h
              · intro x
                rfl
              · intro x hx
                rfl

theorem tokGone_logoutCtrl (t : String) (st : AuthState) (tok : Option String)
    (ip : String) (now : Nat) (h : TokGone t st.tokens) :
    TokGone t (logoutCtrl st tok ip now).tokens := by
  simp only [logoutCtrl]
  split
  · exact h
  · split
    · exact h
    · refine tokGone_updateFirst t _ _ ?_ ?_ _ h
      · intro x
        rfl
      · intro x hx
        rfl

theorem tokGone_step (t : String) (st : AuthState) (op : AuthOp)
    (h : TokGone t st.tokens) : TokGone t (step st op).tokens := by
  cases op with
  | doRefresh tok ip now fresh => exact tokGone_refreshCtrl t st tok ip now fresh true h
  | doLogout tok ip now => exact tokGone_logoutCtrl t st tok ip now h
  | doLogoutAll uid ip now =>
    refine tokGone_map t _ ?_ ?_ _ h
    · intro x
      by_cases hc : (x.userId == uid && x.isActive) = true <;> simp [hc]
    · intro x hx
      simp [hx]
  | doIssue uid ip now fresh => exact tokGone_append t _ _ h

theorem tokGone_runOps (t : String) (st : AuthState) (ops : List AuthOp)
    (h : TokGone t st.tokens) : TokGone t (runOps st ops).tokens := by
  induction ops generalizing st with
  | nil => exact h
  | cons op ops ih => exact ih (step st op) (tokGone_step t st op h)

/-- Inversion of a successful rotation: what must have held of the request
and what the resulting state is. -/
theorem refresh_ok_inv (st : AuthState) (tok : Option String) (ip : String)
    (now : Nat) (fresh : String) (uid : Nat) (role : String) (T1 : String)
    (st1 : AuthState)
    (h : refreshTokenCtrl st tok ip now fresh true = (.ok uid role T1, st1)) :
    ∃ t r u, tok = some t ∧ t ≠ "" ∧
      findTok st t = some r ∧ isValidTok r now = true ∧
      findUser st r.userId = some u ∧ u.isActive = true ∧
      uid = u.id ∧ role = u.role ∧ T1 = fresh ∧
      st1.users = st.users ∧
      st1.tokens = updateFirst (fun x => x.token == t)
          (fun x => revoke { x with replacedByToken := some fresh } now ip)
          st.tokens ++ [generateRefreshToken u.id ip now fresh] := by
  simp only [refreshTokenCtrl] at h
  split at h
  · simp at h
  · rename_i htr
    have htruthy : jsTruthy tok = true := by
      revert htr
      cases jsTruthy tok <;> simp
    obtain ⟨t, htok⟩ : ∃ t, tok = some t := by
      cases tok with
      | none => simp [jsTruthy] at htruthy
      | some t => exact ⟨t, rfl⟩
    subst htok
    have htne : t ≠ "" := by
      simpa [jsTruthy] using htruthy
    refine ⟨t, ?_⟩
    split at h
    · simp at h
    · rename_i r hfind
      split at h
      · simp at h
      · rename_i hvalid
        split at h
        · simp at h
        · rename_i u huser
          split at h
          · simp at h
          · rename_i hactive
            split at h
            · rw [Prod.mk.injEq] at h
              obtain ⟨h1, h2⟩ := h
              injection h1 with e1 e2 e3
              subst e1
              subst e2
              subst e3
              subst h2
              refine ⟨r, u, rfl, htne, hfind, ?_, huser, ?_, rfl, rfl, rfl, rfl, rfl⟩
              · revert hvalid
                cases isValidTok r now <;> simp
              · revert hactive
                cases u.isActive <;> simp
            · simp at h

/-- A nonempty token string that is on file and revoked is always answered
with 401, whatever the rest of the request. -/
theorem refresh_revoked_401 (st : AuthState) (t ip : String) (now : Nat)
    (fresh : String) (saveOk : Bool) (ht : t ≠ "") (h : TokGone t st.tokens) :
    (refreshTokenCtrl st (some t) ip now fresh saveOk).1 =
      .err 401 "Refresh token is expired or revoked" := by
  obtain ⟨r, hr, hact⟩ := h
  have hj : jsTruthy (some t) = true := by simpa [jsTruthy] using ht
  have hfind : findTok st t = some r := hr
  simp [refreshTokenCtrl, hj, hfind, isValidTok, hact]

/-! ### Concrete states used by witnesses and counterexamples -/

/-- An active viewer account. -/
def userA : User :=
  { id := 1, name := "A", email := "a@x.com", password := "pw",
    role := "viewer", isActive := true }

/-- A live refresh token of `userA`. -/
def tokA : TokenRec :=
  { token := "t0", userId := 1, expiresAt := 1000, createdByIp := "ip" }

/-- A state with one active user holding one live refresh token. -/
def stA : AuthState := { users := [userA], tokens := [tokA] }

/-- The state right after a successful rotation of `t0` into `t1`. -/
def stA1 : AuthState := (refreshTokenCtrl stA (some "t0") "ip" 5 "t1" true).2

/-- Claim C2: once `refresh(T0)` succeeds and returns a pair whose refresh
token is T1, every later `refresh(T0)` — after any interleaving of
rotations, logouts, bulk revocations and fresh issuances — fails with 401,
and `refresh(T1)` succeeds in any state in which the record of T1 is
active, unrevoked and unexpired and its owning user exists and is
active. -/
theorem refresh_single_use_rotation (st st1 : AuthState) (T0 ip fresh : String)
    (now uid : Nat) (role T1 : String)
    (hrun : refreshTokenCtrl st (some T0) ip now fresh true =
      (.ok uid role T1, st1)) :
    (∀ ops : List AuthOp, ∀ ip2 fresh2 : String, ∀ now2 : Nat, ∀ saveOk2 : Bool,
        (refreshTokenCtrl (runOps st1 ops) (some T0) ip2 now2 fresh2 saveOk2).1 =
          .err 401 "Refresh token is expired or revoked") ∧
    (∀ st2 : AuthState, ∀ r : TokenRec, ∀ u : User, ∀ ip2 fresh2 : String,
        ∀ now2 : Nat,
        T1 ≠ "" → findTok st2 T1 = some r → isValidTok r now2 = true →
        findUser st2 r.userId = some u → u.isActive = true →
        (refreshTokenCtrl st2 (some T1) ip2 now2 fresh2 true).1 =
          .ok u.id u.role fresh2) := by
  obtain ⟨t, r, u, het, htne, hfind, hvalid, huser, hactive, huid, hrole, hT1,
    husers, htokens⟩ := refresh_ok_inv st (some T0) ip now fresh uid role T1 st1 hrun
  injection het with het2
  subst het2
  constructor
  · intro ops ip2 fresh2 now2 saveOk2
    apply refresh_revoked_401 _ _ _ _ _ _ htne
    apply tokGone_runOps
    rw [htokens]
    apply tokGone_append
    have hupd := find?_updateFirst_self (fun x => x.token == T0)
      (fun x => revoke { x with replacedByToken := some fresh } now ip)
      st.tokens (fun x => rfl)
    refine ⟨revoke { r with replacedByToken := some fresh } now ip, ?_, rfl⟩
    rw [hupd]
    rw [show st.tokens.find? (fun x => x.token == T0) = some r from hfind]
    rfl
  · intro st2 r2 u2 ip2 fresh2 now2 hT1ne hfind2 hvalid2 huser2 hact2
    have hj : jsTruthy (some T1) = true := by simpa [jsTruthy] using hT1ne
    simp [refreshTokenCtrl, hj, hfind2, hvalid2, huser2, hact2]

/-- Witness for C2 at a concrete state: after rotating `t0` into `t1`, a
replay of `t0` is answered 401 and `t1` still rotates. -/
theorem refresh_single_use_rotation_witness :
    (refreshTokenCtrl (runOps stA1 []) (some "t0") "ip" 6 "t2" true).1 =
      .err 401 "Refresh token is expired or revoked" ∧
    (refreshTokenCtrl stA1 (some "t1") "ip" 7 "t3" true).1 =
      .ok 1 "viewer" "t3" := by
  have h := refresh_single_use_rotation stA stA1 "t0" "ip" "t1" 5 1 "viewer" "t1"
    (by rfl)
  refine ⟨h.1 [] "ip" "t2" 6 true, ?_⟩
  exact h.2 stA1 (generateRefreshToken 1 "ip" 5 "t1") userA "ip" "t3" 7
    (by decide) (by rfl) (by rfl) (by rfl) (by rfl)

/-- Claim C3, evidence of the divergence: in a state where the presented
token `t0` passes the validity check and its user is active, a rotation in
which persisting the successor fails leaves the presented record revoked
(revokedAt and revokedByIp set, isActive false, successor chained) while no
successor record exists — the presented record is not left unchanged. -/
theorem refresh_save_failure_revokes_presented :
    (refreshTokenCtrl stA (some "t0") "ip2" 10 "t9" false).1 =
      .err 500 "Server Error" ∧
    (refreshTokenCtrl stA (some "t0") "ip2" 10 "t9" false).2.tokens =
      [{ token := "t0", userId := 1, expiresAt := 1000, createdByIp := "ip",
         revokedAt := some 10, revokedByIp := some "ip2",
         replacedByToken := some "t9", isActive := false }] := by
  exact ⟨rfl, rfl⟩

/-- Fallback element for positional lookups in token stores. -/
def dummyTok : TokenRec :=
  { token := "", userId := 0, expiresAt := 0, createdByIp := "" }

/-- Claim C10: `revokeAllForUser` touches exactly the records whose userId
matches and whose isActive flag is true; every record of another user and
every already-inactive record of the same user keeps all its fields,
including previously set revokedAt and revokedByIp; the touched records
change only revokedAt, revokedByIp and isActive. -/
theorem revokeAllForUser_frame (uid : Nat) (ip : String) (now : Nat)
    (store : List TokenRec) :
    (revokeAllForUser uid ip now store).length = store.length ∧
    ∀ i : Nat, i < store.length →
      (¬((store.getD i dummyTok).userId = uid ∧
          (store.getD i dummyTok).isActive = true) →
        (revokeAllForUser uid ip now store).getD i dummyTok =
          store.getD i dummyTok) ∧
      ((store.getD i dummyTok).userId = uid →
        (store.getD i dummyTok).isActive = true →
        (revokeAllForUser uid ip now store).getD i dummyTok =
          { store.getD i dummyTok with
              revokedAt := some now, revokedByIp := some ip,
              isActive := false }) := by
  constructor
  · simp [revokeAllForUser]
  · intro i
    induction store generalizing i with
    | nil =>
      intro hi
      simp at hi
    | cons a l ih =>
      intro hi
      cases i with
      | zero =>
        simp only [List.getD_cons_zero, revokeAllForUser, List.map_cons]
        constructor
        · intro hnot
          cases hc : (a.userId == uid && a.isActive) with
          | false => simp [hc]
          | true =>
            rw [Bool.and_eq_true] at hc
            exact absurd ⟨by simpa using hc.1, hc.2⟩ hnot
        · intro h1 h2
          have hc : (a.userId == uid && a.isActive) = true := by
            simp [h1, h2]
          simp [hc]
      | succ j =>
        simp only [List.getD_cons_succ, revokeAllForUser, List.map_cons]
        exact ih j (Nat.lt_of_succ_lt_succ hi)

/-- A concrete token store: one live record of user 1, one live record of
user 2, one revoked record of user 1. -/
def storeB : List TokenRec :=
  [{ token := "x1", userId := 1, expiresAt := 50, createdByIp := "ipa" },
   { token := "x2", userId := 2, expiresAt := 60, createdByIp := "ipb" },
   { token := "x3", userId := 1, expiresAt := 70, createdByIp := "ipc",
     revokedAt := some 3, revokedByIp := some "ipz", isActive := false }]

/-- Witness for C10 on `storeB`: the record of user 2 and the
already-revoked record of user 1 are untouched, the live record of user 1
is revoked. -/
theorem revokeAllForUser_frame_witness :
    (revokeAllForUser 1 "ip9" 100 storeB).getD 1 dummyTok =
      storeB.getD 1 dummyTok ∧
    (revokeAllForUser 1 "ip9" 100 storeB).getD 2 dummyTok =
      storeB.getD 2 dummyTok ∧
    (revokeAllForUser 1 "ip9" 100 storeB).getD 0 dummyTok =
      { storeB.getD 0 dummyTok with
          revokedAt := some 100, revokedByIp := some "ip9",
          isActive := false } := by
  have h := revokeAllForUser_frame 1 "ip9" 100 storeB
  exact ⟨(h.2 1 (by decide)).1 (by decide), (h.2 2 (by decide)).1 (by decide),
    (h.2 0 (by decide)).2 (by decide) (by decide)⟩

/-- Claim C8: `requireRole` answers 401 whenever the bearer token is
missing or fails verification (malformed, expired or bad signature), and a
403 response can only arise after the token verified and the user record
was found, namely for a deactivated account or a role outside the allowed
list. -/
theorem requireRole_401_before_403 (roles : List String) (users : List User)
    (header : Option String) (verify : String → Option Nat) :
    ((extractToken header = none ∨ extractToken header = some "") →
      requireRole roles users header verify =
        .err 401 "Not authorized to access this route") ∧
    (∀ t, extractToken header = some t → t ≠ "" → verify t = none →
      requireRole roles users header verify =
        .err 401 "Not authorized to access this route") ∧
    (∀ s m, requireRole roles users header verify = .err s m → s = 403 →
      ∃ t uidv u, extractToken header = some t ∧ verify t = some uidv ∧
        users.find? (fun x => x.id == uidv) = some u ∧
        (u.isActive = false ∨ roles.contains u.role = false)) := by
  refine ⟨?_, ?_, ?_⟩
  · intro hcase
    have hj : jsTruthy (extractToken header) = false := by
      rcases hcase with h | h <;> simp [h, jsTruthy]
    simp [requireRole, hj]
  · intro t ht htne hv
    have hj : jsTruthy (extractToken header) = true := by
      simp [ht, jsTruthy, htne]
    simp [requireRole, hj, ht, hv]
  · intro s m h hs
    subst hs
    simp only [requireRole] at h
    cases hex : extractToken header with
    | none =>
      rw [hex] at h
      simp [jsTruthy] at h
    | some t =>
      rw [hex] at h
      by_cases htne : t = ""
      · subst htne
        simp [jsTruthy] at h
      · have hj : jsTruthy (some t) = true := by simp [jsTruthy, htne]
        simp only [hj, Bool.not_true, Bool.false_eq_true, if_false] at h
        cases hv : verify t with
        | none =>
          simp [hv] at h
        | some uidv =>
          simp only [Option.getD_some, hv] at h
          cases hf : users.find? (fun x => x.id == uidv) with
          | none =>
            simp [hf] at h
          | some u =>
            simp only [hf] at h
            cases hact : u.isActive with
            | false =>
              exact ⟨t, uidv, u, rfl, hv, hf, Or.inl hact⟩
            | true =>
              simp only [hact, Bool.not_true, Bool.false_eq_true, if_false] at h
              cases hc : roles.contains u.role with
              | false =>
                exact ⟨t, uidv, u, rfl, hv, hf, Or.inr hc⟩
              | true =>
                rw [hc] at h
                simp at h

/-- Witness for C8: a missing header yields 401, and a concrete 403 (viewer
hitting an owner-only gate) arises with the token verified and the user
found. -/
theorem requireRole_401_before_403_witness :
    requireRole ["owner"] [userA] none (fun _ => some 1) =
      .err 401 "Not authorized to access this route" ∧
    (∃ t uidv u, extractToken (some "Bearer tok") = some t ∧
      (fun _ : String => some 1) t = some uidv ∧
      [userA].find? (fun x => x.id == uidv) = some u ∧
      (u.isActive = false ∨ (["owner"] : List String).contains u.role = false)) := by
  have h1 := requireRole_401_before_403 ["owner"] [userA] none (fun _ => some 1)
  have h2 := requireRole_401_before_403 ["owner"] [userA] (some "Bearer tok")
    (fun _ => some 1)
  exact ⟨h1.1 (Or.inl rfl),
    h2.2.2 403 "User role viewer is not authorized to access this route"
      (by rfl) rfl⟩

/-- Claim C9: the permission table has no entry for the owner role, so for
an authenticated owner `hasPermission` answers 403 with message Invalid
role for every permission, and the permissions endpoint returns an empty
permission object. -/
theorem owner_has_no_permissions (u : User) (p : String)
    (hrole : u.role = "owner") :
    PERMISSIONS "owner" = none ∧
    hasPermission p (some u) = .err 403 "Invalid role" ∧
    getUserPermissions (some u) =
      { status := 200, role := "owner", perms := [] } := by
  refine ⟨rfl, ?_, ?_⟩
  · simp [hasPermission, hrole, PERMISSIONS]
  · simp [getUserPermissions, hrole, PERMISSIONS]

/-- Witness for C9 at a concrete owner principal. -/
theorem owner_has_no_permissions_witness :
    hasPermission "viewDashboard"
      (some { id := 7, name := "O", email := "o@x.com", password := "p",
              role := "owner", isActive := true }) = .err 403 "Invalid role" := by
  exact (owner_has_no_permissions
    { id := 7, name := "O", email := "o@x.com", password := "p",
      role := "owner", isActive := true } "viewDashboard" rfl).2.1

/-- Claim C1, counterexample: on the mounted auth route
(authControllerV2.register), a request that supplies role admin creates a
user whose stored and reported role is admin, not viewer — the supplied
role is not ignored. -/
theorem registerV2_honors_supplied_admin_role :
    (registerV2 (AuthState.mk [] []) "Bob" "b@x.com" "secret1" (some "admin")
        "ip" 0 1 "tk").1 = .ok 1 "admin" "tk" ∧
    RegisterOut.ok 1 "admin" "tk" ≠ RegisterOut.ok 1 "viewer" "tk" := by
  exact ⟨rfl, by decide⟩

/-- Claim C1 as amended: on the mounted auth route, a supplied role of
owner (or any value outside admin, operator, viewer) is rejected with a 400
validation error and nothing is stored; every successful registration
stores one of admin, operator, viewer; and when the role field is absent or
empty the stored role is viewer. -/
theorem registerV2_role_policy (st : AuthState) (name email password : String)
    (role : Option String) (ip : String) (now freshId : Nat)
    (freshTok : String) :
    (role = some "owner" →
      (∃ m, (registerV2 st name email password role ip now freshId freshTok).1 =
        .err 400 m) ∧
      (registerV2 st name email password role ip now freshId freshTok).2 = st) ∧
    (∀ uid r tk,
      (registerV2 st name email password role ip now freshId freshTok).1 =
        .ok uid r tk → validRoles.contains r = true) ∧
    ((role = none ∨ role = some "") →
      ∀ uid r tk,
        (registerV2 st name email password role ip now freshId freshTok).1 =
          .ok uid r tk → r = "viewer") := by
  refine ⟨?_, ?_, ?_⟩
  · intro hr
    subst hr
    simp only [registerV2]
    split
    · exact ⟨⟨_, rfl⟩, rfl⟩
    · split
      · exact ⟨⟨_, rfl⟩, rfl⟩
      · rename_i hcond
        exact absurd (by decide) hcond
  · intro uid r tk h
    simp only [registerV2] at h
    split at h
    · simp at h
    · split at h
      · simp at h
      · rename_i hcond
        injection h with e1 e2 e3
        subst e2
        cases hjt : jsTruthy role with
        | true =>
          have hcont : validRoles.contains (role.getD "") = true := by
            revert hcond
            simp [hjt]
          simpa [hjt] using hcont
        | false =>
          simp only [hjt, Bool.false_eq_true, if_false]
          rfl
  · intro hcase uid r tk h
    have hjf : jsTruthy role = false := by
      rcases hcase with h0 | h0 <;> simp [h0, jsTruthy]
    simp only [registerV2] at h
    split at h
    · simp at h
    · split at h
      · simp at h
      · rw [hjf] at h
        injection h with e1 e2 e3
        exact e2.symm

/-- Witness for C1: the owner rejection and a successful admin creation at
concrete inputs. -/
theorem registerV2_role_policy_witness :
    (∃ m, (registerV2 (AuthState.mk [] []) "B" "b@x.com" "secret1"
        (some "owner") "ip" 0 1 "tk").1 = .err 400 m) ∧
    validRoles.contains "admin" = true := by
  have h1 := registerV2_role_policy (AuthState.mk [] []) "B" "b@x.com" "secret1"
    (some "owner") "ip" 0 1 "tk"
  have h2 := registerV2_role_policy (AuthState.mk [] []) "B" "b@x.com" "secret1"
    (some "admin") "ip" 0 1 "tk"
  exact ⟨(h1.1 rfl).1, h2.2.1 1 "admin" "tk" (by rfl)⟩

/-- A users collection with one registered account, alice at x.com. -/
def usersC4 : List User :=
  [{ id := 3, name := "Alice", email := "alice@x.com", password := "p",
     role := "viewer", isActive := true }]

/-- Claim C4, evidence of the divergence: for a registered email the
forgot-password endpoint answers with the message Password reset token
generated and includes the reset token in the body, while for an unknown
email it answers with the generic acknowledgement — the two observable
responses differ, revealing whether the account exists. -/
theorem forgotPassword_reveals_account_existence :
    (forgotPassword usersC4 (some "alice@x.com") "rtok" 0).1 =
      .ack "Password reset token generated" (some "rtok") ∧
    (forgotPassword usersC4 (some "ghost@x.com") "rtok" 0).1 =
      .ack "If an account exists with this email, a password reset link has been sent"
        none ∧
    (forgotPassword usersC4 (some "alice@x.com") "rtok" 0).1 ≠
      (forgotPassword usersC4 (some "ghost@x.com") "rtok" 0).1 := by
  exact ⟨rfl, rfl, by decide⟩

/-- Membership of an id in the set of owner accounts. -/
def isOwnerId (users : List User) (i : Nat) : Prop :=
  ∃ u, u ∈ users ∧ u.id = i ∧ u.role = "owner"

theorem isOwnerId_cons (x : User) (l : List User) (i : Nat) :
    isOwnerId (x :: l) i ↔ (x.id = i ∧ x.role = "owner") ∨ isOwnerId l i := by
  constructor
  · rintro ⟨u, hu, hid, hrole⟩
    rcases List.mem_cons.mp hu with h | h
    · subst h
      exact Or.inl ⟨hid, hrole⟩
    · exact Or.inr ⟨u, h, hid, hrole⟩
  · rintro (⟨hid, hrole⟩ | ⟨u, hu, hid, hrole⟩)
    · exact ⟨x, List.mem_cons_self x l, hid, hrole⟩
    · exact ⟨u, List.mem_cons_of_mem x hu, hid, hrole⟩

theorem isOwnerId_append_single (l : List User) (x : User) (i : Nat)
    (hx : x.role ≠ "owner") : isOwnerId (l ++ [x]) i ↔ isOwnerId l i := by
  constructor
  · rintro ⟨u, hu, hid, hrole⟩
    rcases List.mem_append.mp hu with h | h
    · exact ⟨u, h, hid, hrole⟩
    · rw [List.mem_singleton] at h
      subst h
      exact absurd hrole hx
  · rintro ⟨u, hu, hid, hrole⟩
    exact ⟨u, List.mem_append_left _ hu, hid, hrole⟩

theorem isOwnerId_updateFirst (p : User → Bool) (f : User → User) (a : User)
    (ha : a.role ≠ "owner") (hfa : (f a).role ≠ "owner") (i : Nat) :
    ∀ l : List User, l.find? p = some a →
      (isOwnerId (updateFirst p f l) i ↔ isOwnerId l i) := by
  intro l
  induction l with
  | nil =>
    intro h
    simp [List.find?] at h
  | cons b l ih =>
    intro hfind
    cases hb : p b with
    | true =>
      rw [find?_cons_pos p b l hb] at hfind
      injection hfind with e
      subst e
      rw [updateFirst, if_pos hb, isOwnerId_cons, isOwnerId_cons]
      constructor
      · rintro (⟨hid, hrole⟩ | h)
        · exact absurd hrole hfa
        · exact Or.inr h
      · rintro (⟨hid, hrole⟩ | h)
        · exact absurd hrole ha
        · exact Or.inr h
    | false =>
      rw [find?_cons_neg p b l hb] at hfind
      rw [updateFirst, if_neg (by simp [hb]), isOwnerId_cons, isOwnerId_cons,
        ih hfind]

/-- Claim C5: no administrative operation creates an owner or changes an
owner. `createUser` with role owner always fails with a 400 validation
error; `changeUserRole` with requested role owner always fails with 400;
`changeUserRole` on a target whose current role is owner always fails with
400; and both operations leave the set of owner ids unchanged for every
input. -/
theorem admin_ops_preserve_owner_set (users : List User)
    (name email password role : Option String) (freshId userId i : Nat) :
    ((∃ m, (createUser users name email password (some "owner") freshId).1 =
        .err 400 m) ∧
      (createUser users name email password (some "owner") freshId).2 = users) ∧
    ((changeUserRole users userId (some "owner")).1 =
        .err 400 "Role must be admin, operator, or viewer" ∧
      (changeUserRole users userId (some "owner")).2 = users) ∧
    (∀ u, users.find? (fun x => x.id == userId) = some u → u.role = "owner" →
      (∃ m, (changeUserRole users userId role).1 = .err 400 m) ∧
      (changeUserRole users userId role).2 = users) ∧
    (isOwnerId (createUser users name email password role freshId).2 i ↔
      isOwnerId users i) ∧
    (isOwnerId (changeUserRole users userId role).2 i ↔ isOwnerId users i) := by
  refine ⟨?_, ⟨rfl, rfl⟩, ?_, ?_, ?_⟩
  · simp only [createUser]
    split
    · exact ⟨⟨_, rfl⟩, rfl⟩
    · split
      · exact ⟨⟨_, rfl⟩, rfl⟩
      · split
        · exact ⟨⟨_, rfl⟩, rfl⟩
        · rename_i hcond
          exact absurd (by decide) hcond
  · intro u hfind hrole
    simp only [changeUserRole]
    split
    · exact ⟨⟨_, rfl⟩, rfl⟩
    · split
      · exact ⟨⟨_, rfl⟩, rfl⟩
      · rw [hfind]
        have hbeq : (u.role == "owner") = true := by simp [hrole]
        simp only [hbeq, if_true]
        exact ⟨⟨_, rfl⟩, by trivial⟩
  · simp only [createUser]
    split
    · exact Iff.rfl
    · split
      · exact Iff.rfl
      · split
        · exact Iff.rfl
        · split
          · exact Iff.rfl
          · rename_i hcond _
            have hc : validRoles.contains (role.getD "") = true := by
              revert hcond
              cases validRoles.contains (role.getD "") <;> simp
            have hne : role.getD "" ≠ "owner" := by
              intro heq
              rw [heq] at hc
              exact absurd hc (by decide)
            exact isOwnerId_append_single users _ i hne
  · simp only [changeUserRole]
    split
    · exact Iff.rfl
    · split
      · exact Iff.rfl
      · rename_i hcont
        have hc : validRoles.contains (role.getD "") = true := by
          revert hcont
          cases validRoles.contains (role.getD "") <;> simp
        have hne : role.getD "" ≠ "owner" := by
          intro heq
          rw [heq] at hc
          exact absurd hc (by decide)
        cases hf : users.find? (fun x => x.id == userId) with
        | none => exact Iff.rfl
        | some u =>
          cases hb : (u.role == "owner") with
          | true => simp only [hb, if_true]
          | false =>
            simp only [hb, Bool.false_eq_true, if_false]
            split
            · exact Iff.rfl
            · have hu : u.role ≠ "owner" := by simpa using hb
              exact isOwnerId_updateFirst (fun x => x.id == userId)
                (fun x => { x with role := role.getD "" }) u hu hne i users hf

/-- A concrete registry: one active owner (id 1) and one active viewer
(id 2). -/
def usersC5 : List User :=
  [{ id := 1, name := "O", email := "o@x.com", password := "p",
     role := "owner", isActive := true },
   { id := 2, name := "V", email := "v@x.com", password := "p",
     role := "viewer", isActive := true }]

/-- Witness for C5: the role change on the owner account is rejected and
the state is unchanged, and a role change of the viewer keeps the owner
set. -/
theorem admin_ops_preserve_owner_set_witness :
    (∃ m, (changeUserRole usersC5 1 (some "admin")).1 = .err 400 m) ∧
    (changeUserRole usersC5 1 (some "admin")).2 = usersC5 ∧
    (isOwnerId (changeUserRole usersC5 2 (some "admin")).2 1 ↔
      isOwnerId usersC5 1) := by
  have ha := admin_ops_preserve_owner_set usersC5 (some "N") (some "n@x.com")
    (some "password1") (some "admin") 5 1 1
  have hb := admin_ops_preserve_owner_set usersC5 (some "N") (some "n@x.com")
    (some "password1") (some "admin") 5 2 1
  obtain ⟨hm, hstate⟩ := ha.2.2.1
    { id := 1, name := "O", email := "o@x.com", password := "p",
      role := "owner", isActive := true } (by rfl) (by rfl)
  exact ⟨hm, hstate, hb.2.2.2.2⟩

theorem mem_removeFirst {α : Type} (p : α → Bool) (v : α) (hv : p v = false) :
    ∀ l : List α, v ∈ l → v ∈ removeFirst p l := by
  intro l
  induction l with
  | nil =>
    intro h
    exact absurd h (List.not_mem_nil v)
  | cons a l ih =>
    intro h
    simp only [removeFirst]
    split
    · rcases List.mem_cons.mp h with he | hm
      · rename_i hpa
        subst he
        rw [hv] at hpa
        exact absurd hpa (by simp)
      · exact hm
    · rcases List.mem_cons.mp h with he | hm
      · subst he
        exact List.mem_cons_self v _
      · exact List.mem_cons_of_mem a (ih hm)

theorem removeFirst_find?_none (targetId : Nat) :
    ∀ l : List User, (l.map User.id).Nodup →
      (removeFirst (fun x => x.id == targetId) l).find?
        (fun x => x.id == targetId) = none := by
  intro l
  induction l with
  | nil =>
    intro _
    rfl
  | cons a l ih =>
    intro hnd
    rw [List.map_cons, List.nodup_cons] at hnd
    obtain ⟨hna, hnd2⟩ := hnd
    simp only [removeFirst]
    split
    · rename_i hpa
      have haid : a.id = targetId := by simpa using hpa
      rw [List.find?_eq_none]
      intro x hx hxid
      have hxa : x.id = a.id := by
        rw [haid]
        simpa using hxid
      exact hna (hxa ▸ List.mem_map_of_mem User.id hx)
    · rename_i hpa
      have hb : (a.id == targetId) = false := by
        revert hpa
        cases a.id == targetId <;> simp
      rw [find?_cons_neg (fun x => x.id == targetId) a _ hb]
      exact ih hnd2

/-- Claim C6, counterexample: `deleteUser` by an owner (id 1) on a plain
viewer (id 2) removes the document from the collection entirely
(`findByIdAndDelete`); no record with the target id survives, so the
operation is not a soft, reversible deactivation that preserves the user
record. -/
theorem deleteUser_hard_deletes_target :
    (deleteUser usersC5 1 2).1 =
      .ok 200 { id := 2, name := "V", email := "v@x.com", password := "p",
                role := "viewer", isActive := true } ∧
    (deleteUser usersC5 1 2).2.find? (fun x => x.id == 2) = none ∧
    (deleteUser usersC5 1 2).2 =
      [{ id := 1, name := "O", email := "o@x.com", password := "p",
         role := "owner", isActive := true }] := by
  exact ⟨rfl, rfl, rfl⟩

/-- Claim C6 as amended: `deleteUser` rejects with 403 when the target is
an owner, rejects with 403 when the target is the requester (even an
owner), and otherwise permanently removes the target document — after a
successful delete no record with the target id remains (given unique ids),
while every other record survives. -/
theorem deleteUser_policy (users : List User) (requesterId targetId : Nat)
    (u : User) (hfind : users.find? (fun x => x.id == targetId) = some u) :
    (u.role = "owner" →
      deleteUser users requesterId targetId =
        (.err 403 "Cannot delete an owner account", users)) ∧
    (u.role ≠ "owner" → u.id = requesterId →
      deleteUser users requesterId targetId =
        (.err 403 "Cannot delete your own account", users)) ∧
    (u.role ≠ "owner" → u.id ≠ requesterId →
      (deleteUser users requesterId targetId).1 = .ok 200 u ∧
      (∀ v, v ∈ users → v.id ≠ targetId →
        v ∈ (deleteUser users requesterId targetId).2) ∧
      ((users.map User.id).Nodup →
        (deleteUser users requesterId targetId).2.find?
          (fun x => x.id == targetId) = none)) := by
  refine ⟨?_, ?_, ?_⟩
  · intro h1
    have hb : (u.role == "owner") = true := by simp [h1]
    simp only [deleteUser]
    rw [hfind]
    simp [hb]
  · intro h1 h2
    have hb : (u.role == "owner") = false := by simp [h1]
    have hb2 : (u.id == requesterId) = true := by simp [h2]
    simp only [deleteUser]
    rw [hfind]
    simp [hb, hb2]
  · intro h1 h2
    have hb : (u.role == "owner") = false := by simp [h1]
    have hb2 : (u.id == requesterId) = false := by simp [h2]
    have hout : deleteUser users requesterId targetId =
        (.ok 200 u, removeFirst (fun x => x.id == targetId) users) := by
      simp only [deleteUser]
      rw [hfind]
      simp [hb, hb2]
    rw [hout]
    refine ⟨rfl, ?_, ?_⟩
    · intro v hv hvne
      exact mem_removeFirst _ v (by simp [hvne]) users hv
    · intro hnd
      exact removeFirst_find?_none targetId users hnd

/-- Witness for C6: the owner target is protected, and the viewer target is
gone after the delete. -/
theorem deleteUser_policy_witness :
    deleteUser usersC5 2 1 =
      (.err 403 "Cannot delete an owner account", usersC5) ∧
    (deleteUser usersC5 1 2).1 =
      .ok 200 { id := 2, name := "V", email := "v@x.com", password := "p",
                role := "viewer", isActive := true } ∧
    (deleteUser usersC5 1 2).2.find? (fun x => x.id == 2) = none := by
  have h1 := deleteUser_policy usersC5 2 1
    { id := 1, name := "O", email := "o@x.com", password := "p",
      role := "owner", isActive := true } (by rfl)
  have h2 := deleteUser_policy usersC5 1 2
    { id := 2, name := "V", email := "v@x.com", password := "p",
      role := "viewer", isActive := true } (by rfl)
  refine ⟨h1.1 rfl, (h2.2.2 (by decide) (by decide)).1,
    (h2.2.2 (by decide) (by decide)).2.2 (by decide)⟩

/-- A registry with a single deactivated account that already has the owner
role. -/
def usersC7 : List User :=
  [{ id := 1, name := "O", email := "o@x.com", password := "p",
     role := "owner", isActive := false }]

/-- Claim C7, counterexample: when the configured owner email belongs to a
user whose role is already owner but whose account is deactivated,
bootstrap leaves the document untouched — the run terminates with the user
still inactive, because isActive is only forced inside the promotion
branch. -/
theorem bootstrapOwner_leaves_deactivated_owner :
    bootstrapOwner (some "o@x.com") none usersC7 9 = usersC7 ∧
    (bootstrapOwner (some "o@x.com") none usersC7 9).find?
        (fun x => x.email == "o@x.com") =
      some { id := 1, name := "O", email := "o@x.com", password := "p",
             role := "owner", isActive := false } := by
  exact ⟨rfl, rfl⟩

/-- Claim C7 as amended: when a user with the configured owner email
exists, bootstrap ends with that user having role owner; isActive is forced
to true only when the previous role was not owner — an account already
holding the owner role is left untouched, so a deactivated owner stays
deactivated. -/
theorem bootstrapOwner_existing_email (users : List User) (e : String)
    (dp : Option String) (freshId : Nat) (u : User) (he : e ≠ "")
    (hfind : users.find? (fun x => x.email == e) = some u) :
    (u.role = "owner" → bootstrapOwner (some e) dp users freshId = users) ∧
    (u.role ≠ "owner" →
      (bootstrapOwner (some e) dp users freshId).find?
          (fun x => x.email == e) =
        some { u with role := "owner", isActive := true }) := by
  have hj : jsTruthy (some e) = true := by simpa [jsTruthy] using he
  constructor
  · intro h1
    have hb : (u.role != "owner") = false := by simp [bne, h1]
    simp only [bootstrapOwner, hj, Bool.not_true, Bool.false_eq_true, if_false,
      Option.getD_some]
    rw [hfind]
    simp [hb]
  · intro h1
    have hb : (u.role != "owner") = true := by simp [bne, h1]
    simp only [bootstrapOwner, hj, Bool.not_true, Bool.false_eq_true, if_false,
      Option.getD_some]
    rw [hfind]
    simp only [hb, if_true]
    rw [find?_updateFirst_self (fun x => x.email == e)
      (fun x => { x with role := "owner", isActive := true }) users
      (fun x => rfl)]
    rw [hfind]
    rfl

/-- A registry with one deactivated viewer whose email is the configured
owner email. -/
def usersC7b : List User :=
  [{ id := 4, name := "U", email := "u@x.com", password := "p",
     role := "viewer", isActive := false }]

/-- Witness for C7: promoting an existing non-owner account forces both the
owner role and reactivation. -/
theorem bootstrapOwner_existing_email_witness :
    (bootstrapOwner (some "u@x.com") none usersC7b 9).find?
        (fun x => x.email == "u@x.com") =
      some { id := 4, name := "U", email := "u@x.com", password := "p",
             role := "owner", isActive := true } := by
  have h := bootstrapOwner_existing_email usersC7b "u@x.com" none 9
    { id := 4, name := "U", email := "u@x.com", password := "p",
      role := "viewer", isActive := false } (by decide) (by rfl)
  exact h.2 (by decide)

end TrafficBackend
